import Mathlib

/-!
Verification development for `variable_morph.py` (spatially-varying binary
morphological erosion).  The Python source is shallowly embedded: dense 2-D
boolean arrays become `Grid` (a pair of dimensions plus an index function),
numpy row slicing becomes index arithmetic, in-place writes become functional
updates, and every Python `assert`/numpy error becomes an `Except.error`.
-/

/-- Dense 2-D boolean array (numpy `ndarray` of dtype bool): a height, a
width, and row-major pixel data.  Indices outside `[0,h) x [0,w)` are not
meaningful and are guarded by `Grid.getB` where border behaviour matters. -/
structure Grid where
  h : Nat
  w : Nat
  data : Nat → Nat → Bool

/-- Bounds-guarded read used by the erosion kernel: cells outside the array
read as `false` (the kernel's border policy: neighbors outside the provided
window are treated as false). -/
def Grid.getB (g : Grid) (i j : Int) : Bool :=
  if 0 ≤ i ∧ i < (g.h : Int) ∧ 0 ≤ j ∧ j < (g.w : Int) then
    g.data i.toNat j.toNat
  else false

/-- Row slice `img[rowmin:rowmax, :]` (a view over rows `[rowmin, rowmax)`). -/
def Grid.rowSlice (g : Grid) (rowmin rowmax : Nat) : Grid where
  h := rowmax - rowmin
  w := g.w
  data := fun i j => g.data (rowmin + i) j

/-- Modelled from the spec (section 6, external morphology collaborator,
consumed but not reimplemented by the repository): elementary binary erosion
`erode(inputWindow, mask, outputBuffer)`.  An output pixel is true iff every
cell under the structuring element, centered at that pixel, is true; cells
outside the windowed view are treated as false. -/
def erodeKernel (win selem : Grid) : Grid where
  h := win.h
  w := win.w
  data := fun i j =>
    decide (∀ di, di < selem.h → ∀ dj, dj < selem.w → selem.data di dj = true →
      win.getB ((i : Int) + di - (selem.h / 2 : Nat))
               ((j : Int) + dj - (selem.w / 2 : Nat)) = true)

/-- Modelled from the spec (section 6): `skimage.morphology.square(2r+1)`,
an all-true mask of side `2*radius+1`. -/
def squareSelem (radius : Nat) : Grid where
  h := 2 * radius + 1
  w := 2 * radius + 1
  data := fun _ _ => true

/-- Modelled from the spec (section 6): `skimage.morphology.diamond(r)`, the
boolean Manhattan ball of radius `radius` inside a side-`2*radius+1` mask. -/
def diamondSelem (radius : Nat) : Grid where
  h := 2 * radius + 1
  w := 2 * radius + 1
  data := fun i j => decide (Nat.dist i radius + Nat.dist j radius ≤ radius)

/-- The two structuring-element shapes accepted by `addBand`. -/
inductive ShapeKind where
  | square : ShapeKind
  | diamond : ShapeKind
deriving DecidableEq

/-- Structuring element built eagerly by `addBand` for a given shape. -/
def selemOf : ShapeKind → Nat → Grid
  | .square, radius => squareSelem radius
  | .diamond, radius => diamondSelem radius

/-- One entry of `self.diBands`: the band's shape, radius, eagerly built
structuring element, and (after `setup`) its scratch buffer (`buf` is `none`
while the dictionary entry lacks the `buf` key). -/
structure BandInfo where
  shape : ShapeKind
  radius : Nat
  selem : Grid
  buf : Option Grid

/-- The `VariableMorpher` object state: `diBands` (the dict, kept as an
association list ordered by ascending key so iteration over `sorted(keys)` is
list order) and the `isSetup` flag. -/
structure Morpher where
  diBands : List (Nat × BandInfo)
  isSetup : Bool

/-- `VariableMorpher.__init__`: empty band dict, `isSetup = False`. -/
def initMorpher : Morpher := ⟨[], false⟩

/-- Keyed insertion/replacement into the ascending association list; models
`self.diBands[maxrow] = {...}` together with iteration over `sorted(keys)`. -/
def insertBand : List (Nat × BandInfo) → Nat → BandInfo → List (Nat × BandInfo)
  | [], k, b => [(k, b)]
  | (k', b') :: rest, k, b =>
    if k < k' then (k, b) :: (k', b') :: rest
    else if k = k' then (k, b) :: rest
    else (k', b') :: insertBand rest k b

/-- `VariableMorpher.addBand(maxrow, radius, shape)`.  `maxrow >= 0` holds by
the `Nat` type; `radius >= 1` and the shape check are the remaining asserts.
Clears `isSetup` and replaces the whole dict entry (discarding any old
buffer), storing the eagerly built structuring element. -/
def addBand (m : Morpher) (maxrow radius : Nat) (shape : ShapeKind) :
    Except String Morpher :=
  if 1 ≤ radius then
    .ok { diBands := insertBand m.diBands maxrow ⟨shape, radius, selemOf shape radius, none⟩,
          isSetup := false }
  else .error "assert radius >= 1"

/-- Loop body of `VariableMorpher.setup`: for each band in ascending key
order (threading `lastrow`), allocate a boolean buffer of shape
`(rowmax - rowmin, width)` where `rowmin = max(0, lastrow - radius)` and
`rowmax = min(height, row + radius)`.  `np.empty` raises on a negative
dimension; its contents are uninitialized (modelled as all-false, which is
sound because the kernel overwrites the whole buffer before any read). -/
def setupBands (H W : Nat) : List (Nat × BandInfo) → Nat → Except String (List (Nat × BandInfo))
  | [], _ => .ok []
  | (row, b) :: rest, lastrow =>
    let rowmin : Int := max 0 ((lastrow : Int) - (b.radius : Int))
    let rowmax : Int := min (H : Int) ((row : Int) + (b.radius : Int))
    if 0 ≤ rowmax - rowmin then
      match setupBands H W rest row with
      | .error e => .error e
      | .ok rest' =>
        .ok ((row, { b with buf := some ⟨(rowmax - rowmin).toNat, W, fun _ _ => false⟩ }) :: rest')
    else .error "negative dimensions are not allowed"

/-- `VariableMorpher.setup(shape)`: allocate every band's scratch buffer and
set `isSetup = True`. -/
def setup (m : Morpher) (H W : Nat) : Except String Morpher :=
  match setupBands H W m.diBands 0 with
  | .error e => .error e
  | .ok bands => .ok { diBands := bands, isSetup := true }

/-- `VariableMorpher.erode_in_band(img, rowstart, rowend, out, radius, selem,
bandbuf)`.  Returns the (img, out, bandbuf) triple after the call: `img` is
only read, the erosion kernel overwrites `bandbuf`, and the trimmed rows are
copied into `out[rowstart:rowend, :]`.  Each `assert` (and the kernel's
shape check on its `out=` argument) becomes an `Except.error`. -/
def erode_in_band (img : Grid) (rowstart rowend : Nat) (out : Grid)
    (radius : Nat) (selem bandbuf : Grid) : Except String (Grid × Grid × Grid) :=
  if rowend ≤ img.h then
    if rowstart < rowend then
      if img.h = out.h ∧ img.w = out.w then
        if 1 ≤ radius then
          let rowmin : Nat := rowstart - radius
          let rowmax : Nat := min img.h (rowend + radius)
          let inslice : Grid := img.rowSlice rowmin rowmax
          if bandbuf.h = inslice.h ∧ bandbuf.w = inslice.w then
            let bandbuf2 : Grid := erodeKernel inslice selem
            let bufmin : Nat := if rowmin = 0 then 0 else radius
            let bufmax : Int := if rowmax = img.h then (bandbuf2.h : Int)
                                else (bandbuf2.h : Int) - (radius : Int)
            if (rowend : Int) - (rowstart : Int) = bufmax - (bufmin : Int) then
              .ok (img,
                ⟨out.h, out.w, fun i j =>
                  if rowstart ≤ i ∧ i < rowend ∧ j < out.w then
                    bandbuf2.data (bufmin + (i - rowstart)) j
                  else out.data i j⟩,
                bandbuf2)
            else .error "assert (rowend-rowstart) == (bufmax-bufmin)"
          else .error "output shape mismatch in kernel erosion"
        else .error "assert radius >= 1"
      else .error "assert img.shape == out.shape"
    else .error "assert rowstart < rowend"
  else .error "assert rowend <= img.shape[0]"

/-- Result of one pass of the band loop in `binary_erosion`: the (unchanged)
input image, the output grid, the band list with refreshed scratch buffers,
and the first raised error if any. -/
structure RunResult where
  img : Grid
  out : Grid
  bands : List (Nat × BandInfo)
  err : Option String

/-- The band loop of `VariableMorpher.binary_erosion`: iterate bands in
ascending key order, threading `lastrow`, invoking `erode_in_band` for each;
a missing `buf` key (band never set up) raises a `KeyError`. -/
def runBands (img out : Grid) : List (Nat × BandInfo) → Nat → RunResult
  | [], _ => ⟨img, out, [], none⟩
  | (row, b) :: rest, lastrow =>
    match b.buf with
    | none => ⟨img, out, (row, b) :: rest, some "KeyError: buf"⟩
    | some buf =>
      match erode_in_band img lastrow row out b.radius b.selem buf with
      | .error e => ⟨img, out, (row, b) :: rest, some e⟩
      | .ok (img2, out2, buf2) =>
        let res := runBands img2 out2 rest row
        ⟨res.img, res.out, (row, { b with buf := some buf2 }) :: res.bands, res.err⟩

/-- `VariableMorpher.binary_erosion(img)`.  `init` is the uninitialized
content of the `np.empty(img.shape)` output allocation (numpy leaves it
unspecified, so it is an explicit parameter of the model).  On success
returns the new morpher state, the (unchanged) image, and the output. -/
def binary_erosion (m : Morpher) (img : Grid) (init : Nat → Nat → Bool) :
    Except String (Morpher × Grid × Grid) :=
  if m.isSetup = true then
    let out : Grid := ⟨img.h, img.w, init⟩
    let res := runBands img out m.diBands 0
    match res.err with
    | none => .ok ({ m with diBands := res.bands }, res.img, res.out)
    | some e => .error e
  else .error "You must call setup() before you can call this function."

/-- Pixel-level equality on the common domain of two grids of equal shape. -/
def Grid.eqOn (g₁ g₂ : Grid) : Prop :=
  g₁.h = g₂.h ∧ g₁.w = g₂.w ∧ ∀ i, i < g₁.h → ∀ j, j < g₁.w → g₁.data i j = g₂.data i j

instance (g₁ g₂ : Grid) : Decidable (Grid.eqOn g₁ g₂) := by
  unfold Grid.eqOn; infer_instance

/-- Upper bound of the last band in iteration order, starting from a default
(the spec's `lastRow`, initially 0): the exclusive end of the written rows. -/
def lastKeyFrom (d : Nat) : List (Nat × BandInfo) → Nat
  | [] => d
  | (row, _) :: rest => lastKeyFrom row rest

/-- Unwraps an `Except` with a default, used to name concrete pipeline
states in witness statements. -/
def getOk {α : Type} (d : α) : Except String α → α
  | .ok a => a
  | .error _ => d

/-- Boolean success test for an `Except` result. -/
def isOkB {α : Type} : Except String α → Bool
  | .ok _ => true
  | .error _ => false

/-- Configuration calls that mutate a `VariableMorpher` between erosions. -/
inductive MOp where
  | addB : Nat → Nat → ShapeKind → MOp
  | setupOp : Nat → Nat → MOp

/-- Whether a configuration call is a `setup()` call. -/
def isSetupOp : MOp → Bool
  | .setupOp _ _ => true
  | .addB _ _ _ => false

/-- Run a sequence of configuration calls from a starting state; an assert
in any call aborts the sequence. -/
def runOps : Morpher → List MOp → Except String Morpher
  | m, [] => .ok m
  | m, .addB a r s :: rest =>
    match addBand m a r s with
    | .error e => .error e
    | .ok m2 => runOps m2 rest
  | m, .setupOp h w :: rest =>
    match setup m h w with
    | .error e => .error e
    | .ok m2 => runOps m2 rest

/-- The buffer-shape contract of `setup` (section 4.2 of the spec), threaded
over the bands in iteration order with `bandStart` the previous band's upper
bound: each buffer is boolean of shape
`(min(H, upperBound + radius) - max(0, bandStart - radius), W)`. -/
def BufShapesOk (H W : Nat) : Nat → List (Nat × BandInfo) → Prop
  | _, [] => True
  | bandStart, (row, b) :: rest =>
    (∃ g, b.buf = some g ∧ g.h = min H (row + b.radius) - (bandStart - b.radius) ∧ g.w = W) ∧
      BufShapesOk H W row rest

/-- Two band lists with the same keys, radii and structuring elements whose
scratch buffers (when present) have the same shapes. -/
def BufShapeEq : List (Nat × BandInfo) → List (Nat × BandInfo) → Prop
  | [], [] => True
  | (k₁, b₁) :: r₁, (k₂, b₂) :: r₂ =>
    k₁ = k₂ ∧ b₁.radius = b₂.radius ∧ b₁.selem = b₂.selem ∧
      (match b₁.buf, b₂.buf with
       | none, none => True
       | some g₁, some g₂ => g₁.h = g₂.h ∧ g₁.w = g₂.w
       | _, _ => False) ∧
      BufShapeEq r₁ r₂
  | _, _ => False

/-- The 15x10 test grid of the concrete scenario: rows 6-14 of columns 2-6
set, and all rows of columns 3-5 set. -/
def scenarioImg : Grid :=
  ⟨15, 10, fun i j => decide ((6 ≤ i ∧ 2 ≤ j ∧ j ≤ 6) ∨ (3 ≤ j ∧ j ≤ 5))⟩

/-- The configured morpher of the concrete scenario: addBand(8, radius 1,
diamond), addBand(15, radius 2, square), then setup((15, 10)). -/
def scenarioMorpher : Morpher :=
  getOk initMorpher (setup (getOk initMorpher (addBand (getOk initMorpher
    (addBand initMorpher 8 1 .diamond)) 15 2 .square)) 15 10)

/-- The (morpher, image, output) result of the scenario erosion, with the
uninitialized output allocation modelled as all-false. -/
def scenarioResult : Morpher × Grid × Grid :=
  getOk (initMorpher, scenarioImg, scenarioImg)
    (binary_erosion scenarioMorpher scenarioImg (fun _ _ => false))

/-- The grid the claim says the scenario erosion returns: only column 4 true
in rows 0-5 and 8-12, columns 3-5 true in rows 6-7, rows 13-14 false. -/
def claimedOutput : Grid := ⟨15, 10, fun i j =>
  decide ((j = 4 ∧ (i ≤ 5 ∨ (8 ≤ i ∧ i ≤ 12))) ∨ (3 ≤ j ∧ j ≤ 5 ∧ (i = 6 ∨ i = 7)))⟩

/-- The grid the scenario erosion actually returns: row 0 entirely false,
only column 4 true in rows 1-5 and 8-12, columns 3-5 true in rows 6-7, and
rows 13-14 entirely false. -/
def actualOutput : Grid := ⟨15, 10, fun i j =>
  decide ((j = 4 ∧ ((1 ≤ i ∧ i ≤ 5) ∨ (8 ≤ i ∧ i ≤ 12))) ∨
    (3 ≤ j ∧ j ≤ 5 ∧ (i = 6 ∨ i = 7)))⟩

/-- A 3x1 all-true image used to exercise repeated erosion calls. -/
def repImg : Grid := ⟨3, 1, fun _ _ => true⟩

/-- A morpher whose single band (upperBound 1, radius 1, square) covers only
row 0 of a height-3 image, leaving rows 1-2 of the output unwritten. -/
def repMorpher : Morpher :=
  getOk initMorpher (setup (getOk initMorpher (addBand initMorpher 1 1 .square)) 3 1)

/-- First erosion call, with the uninitialized output allocation all-false. -/
def repRun1 : Morpher × Grid × Grid :=
  getOk (initMorpher, repImg, repImg) (binary_erosion repMorpher repImg (fun _ _ => false))

/-- Second erosion call on the state left by the first, with the
uninitialized output allocation all-true this time. -/
def repRun2 : Morpher × Grid × Grid :=
  getOk (initMorpher, repImg, repImg) (binary_erosion repRun1.1 repImg (fun _ _ => true))

theorem rowSlice_getB (img : Grid) (rowmin rowmax : Nat) (r b : Int)
    (hmax : rowmax ≤ img.h)
    (hlo : r < (rowmin : Int) → r < 0)
    (hhi : (rowmax : Int) ≤ r → (img.h : Int) ≤ r) :
    (img.rowSlice rowmin rowmax).getB (r - (rowmin : Int)) b = img.getB r b := by
  simp only [Grid.rowSlice, Grid.getB]
  split_ifs with h₁ h₂ h₂
  · have hidx : rowmin + (r - (rowmin : Int)).toNat = r.toNat := by omega
    rw [hidx]
  · exfalso; omega
  · exfalso; omega
  · rfl

theorem erodeKernel_slice_eq (img selem : Grid) (radius rowmin rowmax i j : Nat)
    (hsel : selem.h = 2 * radius + 1)
    (hmax : rowmax ≤ img.h) (hmi : rowmin ≤ i)
    (hlo : rowmin = 0 ∨ rowmin + radius ≤ i)
    (hhi : rowmax = img.h ∨ i + radius < rowmax) :
    (erodeKernel (img.rowSlice rowmin rowmax) selem).data (i - rowmin) j
      = (erodeKernel img selem).data i j := by
  simp only [erodeKernel]
  rw [decide_eq_decide]
  have hdiv : selem.h / 2 = radius := by omega
  rw [hdiv]
  constructor
  · intro H di hdi dj hdj hm
    have h1 := H di hdi dj hdj hm
    rw [show ((i - rowmin : Nat) : Int) + (di : Int) - (radius : Int)
          = ((i : Int) + (di : Int) - (radius : Int)) - (rowmin : Int) from by omega] at h1
    rwa [rowSlice_getB img rowmin rowmax ((i : Int) + (di : Int) - (radius : Int)) _ hmax
      (by omega) (by rw [hsel] at hdi; omega)] at h1
  · intro H di hdi dj hdj hm
    have h1 := H di hdi dj hdj hm
    rw [show ((i - rowmin : Nat) : Int) + (di : Int) - (radius : Int)
          = ((i : Int) + (di : Int) - (radius : Int)) - (rowmin : Int) from by omega]
    rwa [rowSlice_getB img rowmin rowmax ((i : Int) + (di : Int) - (radius : Int)) _ hmax
      (by omega) (by rw [hsel] at hdi; omega)]

theorem erode_in_band_run (img out selem bandbuf : Grid) (rowstart rowend radius : Nat)
    (hc1 : rowend ≤ img.h) (hc2 : rowstart < rowend)
    (hc3 : img.h = out.h) (hc4 : img.w = out.w) (hc5 : 1 ≤ radius)
    (hc6 : bandbuf.h = min img.h (rowend + radius) - (rowstart - radius))
    (hc7 : bandbuf.w = img.w)
    (hc8 : (rowend : Int) - (rowstart : Int) =
      (if min img.h (rowend + radius) = img.h
        then ((min img.h (rowend + radius) - (rowstart - radius) : Nat) : Int)
        else ((min img.h (rowend + radius) - (rowstart - radius) : Nat) : Int) - (radius : Int))
      - (((if rowstart - radius = 0 then 0 else radius : Nat) : Int))) :
    erode_in_band img rowstart rowend out radius selem bandbuf =
      .ok (img,
        ⟨out.h, out.w, fun i j =>
          if rowstart ≤ i ∧ i < rowend ∧ j < out.w then
            (erodeKernel (img.rowSlice (rowstart - radius) (min img.h (rowend + radius))) selem).data
              ((if rowstart - radius = 0 then 0 else radius) + (i - rowstart)) j
          else out.data i j⟩,
        erodeKernel (img.rowSlice (rowstart - radius) (min img.h (rowend + radius))) selem) := by
  simp only [erode_in_band, Grid.rowSlice, erodeKernel]
  rw [if_pos hc1, if_pos hc2, if_pos ⟨hc3, hc4⟩, if_pos hc5, if_pos ⟨hc6, hc7⟩, if_pos hc8]

theorem erode_in_band_ok (img out selem bandbuf : Grid) (rowstart rowend radius : Nat)
    (hc1 : rowend ≤ img.h) (hc2 : rowstart < rowend)
    (hc3 : img.h = out.h) (hc4 : img.w = out.w) (hc5 : 1 ≤ radius)
    (hc6 : bandbuf.h = min img.h (rowend + radius) - (rowstart - radius))
    (hc7 : bandbuf.w = img.w)
    (hs : rowstart = 0 ∨ radius < rowstart)
    (he : rowend = img.h ∨ rowend + radius < img.h)
    (hsel : selem.h = 2 * radius + 1) :
    erode_in_band img rowstart rowend out radius selem bandbuf =
      .ok (img,
        ⟨out.h, out.w, fun i j =>
          if rowstart ≤ i ∧ i < rowend ∧ j < out.w then (erodeKernel img selem).data i j
          else out.data i j⟩,
        erodeKernel (img.rowSlice (rowstart - radius) (min img.h (rowend + radius))) selem) := by
  have hc8 : (rowend : Int) - (rowstart : Int) =
      (if min img.h (rowend + radius) = img.h
        then ((min img.h (rowend + radius) - (rowstart - radius) : Nat) : Int)
        else ((min img.h (rowend + radius) - (rowstart - radius) : Nat) : Int) - (radius : Int))
      - (((if rowstart - radius = 0 then 0 else radius : Nat) : Int)) := by
    split_ifs <;> omega
  rw [erode_in_band_run img out selem bandbuf rowstart rowend radius hc1 hc2 hc3 hc4 hc5 hc6 hc7 hc8]
  have hfun : (fun i j =>
      if rowstart ≤ i ∧ i < rowend ∧ j < out.w then
        (erodeKernel (img.rowSlice (rowstart - radius) (min img.h (rowend + radius))) selem).data
          ((if rowstart - radius = 0 then 0 else radius) + (i - rowstart)) j
      else out.data i j) =
      (fun i j =>
        if rowstart ≤ i ∧ i < rowend ∧ j < out.w then (erodeKernel img selem).data i j
        else out.data i j) := by
    funext i j
    by_cases hij : rowstart ≤ i ∧ i < rowend ∧ j < out.w
    · rw [if_pos hij, if_pos hij]
      have hidx : (if rowstart - radius = 0 then 0 else radius) + (i - rowstart)
          = i - (rowstart - radius) := by
        have := hij.1
        split_ifs <;> omega
      rw [hidx]
      exact erodeKernel_slice_eq img selem radius (rowstart - radius)
        (min img.h (rowend + radius)) i j hsel (by omega) (by omega)
        (by omega) (by have := hij.2.1; omega)
    · rw [if_neg hij, if_neg hij]
  rw [hfun]

theorem erode_in_band_inv (img out selem bandbuf i2 o2 b2 : Grid) (rowstart rowend radius : Nat)
    (h : erode_in_band img rowstart rowend out radius selem bandbuf = .ok (i2, o2, b2)) :
    (rowend ≤ img.h ∧ rowstart < rowend ∧ img.h = out.h ∧ img.w = out.w ∧ 1 ≤ radius ∧
     bandbuf.h = min img.h (rowend + radius) - (rowstart - radius) ∧ bandbuf.w = img.w ∧
     ((rowend : Int) - (rowstart : Int) =
       (if min img.h (rowend + radius) = img.h
         then ((min img.h (rowend + radius) - (rowstart - radius) : Nat) : Int)
         else ((min img.h (rowend + radius) - (rowstart - radius) : Nat) : Int) - (radius : Int))
       - (((if rowstart - radius = 0 then 0 else radius : Nat) : Int)))) ∧
    i2 = img ∧
    o2 = ⟨out.h, out.w, fun i j =>
      if rowstart ≤ i ∧ i < rowend ∧ j < out.w then
        (erodeKernel (img.rowSlice (rowstart - radius) (min img.h (rowend + radius))) selem).data
          ((if rowstart - radius = 0 then 0 else radius) + (i - rowstart)) j
      else out.data i j⟩ ∧
    b2 = erodeKernel (img.rowSlice (rowstart - radius) (min img.h (rowend + radius))) selem := by
  simp only [erode_in_band, Grid.rowSlice, erodeKernel] at h
  by_cases h1 : rowend ≤ img.h
  · rw [if_pos h1] at h
    by_cases h2 : rowstart < rowend
    · rw [if_pos h2] at h
      by_cases h3 : img.h = out.h ∧ img.w = out.w
      · rw [if_pos h3] at h
        by_cases h4 : 1 ≤ radius
        · rw [if_pos h4] at h
          by_cases h5 : bandbuf.h = min img.h (rowend + radius) - (rowstart - radius) ∧
              bandbuf.w = img.w
          · rw [if_pos h5] at h
            by_cases h6 : (rowend : Int) - (rowstart : Int) =
                (if min img.h (rowend + radius) = img.h
                  then ((min img.h (rowend + radius) - (rowstart - radius) : Nat) : Int)
                  else ((min img.h (rowend + radius) - (rowstart - radius) : Nat) : Int) - (radius : Int))
                - (((if rowstart - radius = 0 then 0 else radius : Nat) : Int))
            · rw [if_pos h6] at h
              rw [Except.ok.injEq, Prod.mk.injEq, Prod.mk.injEq] at h
              obtain ⟨hi, ho, hb⟩ := h
              refine ⟨⟨h1, h2, h3.1, h3.2, h4, h5.1, h5.2, h6⟩, hi.symm, ?_, ?_⟩
              · rw [← ho]; simp only [Grid.rowSlice, erodeKernel]
              · rw [← hb]; simp only [Grid.rowSlice, erodeKernel]
            · rw [if_neg h6] at h; exact absurd h (by simp)
          · rw [if_neg h5] at h; exact absurd h (by simp)
        · rw [if_neg h4] at h; exact absurd h (by simp)
      · rw [if_neg h3] at h; exact absurd h (by simp)
    · rw [if_neg h2] at h; exact absurd h (by simp)
  · rw [if_neg h1] at h; exact absurd h (by simp)

theorem runBands_img (bands : List (Nat × BandInfo)) : ∀ (img out : Grid) (lastrow : Nat),
    (runBands img out bands lastrow).img = img := by
  induction bands with
  | nil => intro img out lastrow; rfl
  | cons hd rest ih =>
    intro img out lastrow
    obtain ⟨row, b⟩ := hd
    simp only [runBands]
    cases hbuf : b.buf with
    | none => rfl
    | some buf =>
      simp only []
      cases her : erode_in_band img lastrow row out b.radius b.selem buf with
      | error e => rfl
      | ok t =>
        obtain ⟨i2, o2, b2⟩ := t
        obtain ⟨-, hi, -, -⟩ :=
          erode_in_band_inv img out b.selem buf i2 o2 b2 lastrow row b.radius her
        simp only []
        rw [ih i2 o2 row]
        exact hi

theorem runBands_dims (bands : List (Nat × BandInfo)) : ∀ (img out : Grid) (lastrow : Nat),
    (runBands img out bands lastrow).out.h = out.h ∧
    (runBands img out bands lastrow).out.w = out.w := by
  induction bands with
  | nil => intro img out lastrow; exact ⟨rfl, rfl⟩
  | cons hd rest ih =>
    intro img out lastrow
    obtain ⟨row, b⟩ := hd
    simp only [runBands]
    cases hbuf : b.buf with
    | none => exact ⟨rfl, rfl⟩
    | some buf =>
      simp only []
      cases her : erode_in_band img lastrow row out b.radius b.selem buf with
      | error e => exact ⟨rfl, rfl⟩
      | ok t =>
        obtain ⟨i2, o2, b2⟩ := t
        obtain ⟨-, -, ho, -⟩ :=
          erode_in_band_inv img out b.selem buf i2 o2 b2 lastrow row b.radius her
        simp only []
        obtain ⟨dh, dw⟩ := ih i2 o2 row
        rw [dh, dw, ho]
        exact ⟨rfl, rfl⟩

theorem runBands_lower (bands : List (Nat × BandInfo)) :
    ∀ (img out : Grid) (lastrow i j : Nat), i < lastrow →
    (runBands img out bands lastrow).out.data i j = out.data i j := by
  induction bands with
  | nil => intro img out lastrow i j hi; rfl
  | cons hd rest ih =>
    intro img out lastrow i j hi
    obtain ⟨row, b⟩ := hd
    simp only [runBands]
    cases hbuf : b.buf with
    | none => rfl
    | some buf =>
      simp only []
      cases her : erode_in_band img lastrow row out b.radius b.selem buf with
      | error e => rfl
      | ok t =>
        obtain ⟨i2, o2, b2⟩ := t
        obtain ⟨hc, -, ho, -⟩ :=
          erode_in_band_inv img out b.selem buf i2 o2 b2 lastrow row b.radius her
        simp only []
        rw [ih i2 o2 row i j (lt_of_lt_of_le hi (le_of_lt hc.2.1)), ho]
        simp only []
        rw [if_neg (by omega)]

theorem bufShapeEq_refl (bands : List (Nat × BandInfo)) : BufShapeEq bands bands := by
  induction bands with
  | nil => trivial
  | cons hd rest ih =>
    obtain ⟨row, b⟩ := hd
    refine ⟨rfl, rfl, rfl, ?_, ih⟩
    cases b.buf with
    | none => trivial
    | some g => exact ⟨rfl, rfl⟩

theorem runBands_shape (bands : List (Nat × BandInfo)) : ∀ (img out : Grid) (lastrow : Nat),
    BufShapeEq bands (runBands img out bands lastrow).bands := by
  induction bands with
  | nil => intro img out lastrow; trivial
  | cons hd rest ih =>
    intro img out lastrow
    obtain ⟨row, b⟩ := hd
    simp only [runBands]
    cases hbuf : b.buf with
    | none => exact bufShapeEq_refl ((row, b) :: rest)
    | some buf =>
      simp only []
      cases her : erode_in_band img lastrow row out b.radius b.selem buf with
      | error e => exact bufShapeEq_refl ((row, b) :: rest)
      | ok t =>
        obtain ⟨i2, o2, b2⟩ := t
        obtain ⟨hc, -, -, hb⟩ :=
          erode_in_band_inv img out b.selem buf i2 o2 b2 lastrow row b.radius her
        simp only []
        refine ⟨rfl, rfl, rfl, ?_, ih i2 o2 row⟩
        rw [hbuf]
        simp only []
        constructor
        · rw [hb]
          simp only [erodeKernel, Grid.rowSlice]
          exact hc.2.2.2.2.2.1
        · rw [hb]
          simp only [erodeKernel, Grid.rowSlice]
          exact hc.2.2.2.2.2.2.1

theorem runBands_pair (bands₁ : List (Nat × BandInfo)) :
    ∀ (bands₂ : List (Nat × BandInfo)) (img out₁ out₂ : Grid) (lastrow : Nat),
    BufShapeEq bands₁ bands₂ → out₁.h = out₂.h → out₁.w = out₂.w →
    (runBands img out₁ bands₁ lastrow).err = none →
    (runBands img out₂ bands₂ lastrow).err = none ∧
    ∀ i j, lastrow ≤ i → i < lastKeyFrom lastrow bands₁ → j < out₁.w →
      (runBands img out₁ bands₁ lastrow).out.data i j =
      (runBands img out₂ bands₂ lastrow).out.data i j := by
  induction bands₁ with
  | nil =>
    intro bands₂ img out₁ out₂ lastrow hsh hh hw herr
    cases bands₂ with
    | nil =>
      refine ⟨rfl, ?_⟩
      intro i j hi₁ hi₂ hj
      simp only [lastKeyFrom] at hi₂
      omega
    | cons hd₂ rest₂ => exact absurd hsh (by simp [BufShapeEq])
  | cons hd₁ rest₁ ih =>
    intro bands₂ img out₁ out₂ lastrow hsh hh hw herr
    obtain ⟨row, b₁⟩ := hd₁
    cases bands₂ with
    | nil => exact absurd hsh (by simp [BufShapeEq])
    | cons hd₂ rest₂ =>
      obtain ⟨k₂, b₂⟩ := hd₂
      obtain ⟨hk, hrad, hsel, hbufs, hrest⟩ := hsh
      subst hk
      cases hbuf₁ : b₁.buf with
      | none =>
        rw [show (runBands img out₁ ((row, b₁) :: rest₁) lastrow).err
              = some "KeyError: buf" from by simp only [runBands, hbuf₁]] at herr
        exact absurd herr (by simp)
      | some g₁ =>
        cases hbuf₂ : b₂.buf with
        | none => rw [hbuf₁, hbuf₂] at hbufs; exact absurd hbufs (by simp)
        | some g₂ =>
          rw [hbuf₁, hbuf₂] at hbufs
          obtain ⟨ghh, gww⟩ := hbufs
          cases her₁ : erode_in_band img lastrow row out₁ b₁.radius b₁.selem g₁ with
          | error e =>
            rw [show (runBands img out₁ ((row, b₁) :: rest₁) lastrow).err = some e from by
              simp only [runBands, hbuf₁, her₁]] at herr
            exact absurd herr (by simp)
          | ok t =>
            obtain ⟨i₁, o₁, bb₁⟩ := t
            obtain ⟨hc, hi₁, ho₁, hb₁⟩ :=
              erode_in_band_inv img out₁ b₁.selem g₁ i₁ o₁ bb₁ lastrow row b₁.radius her₁
            obtain ⟨hc1, hc2, hc3, hc4, hc5, hc6, hc7, hc8⟩ := hc
            have her₂ : erode_in_band img lastrow row out₂ b₂.radius b₂.selem g₂ =
                .ok (img,
                  ⟨out₂.h, out₂.w, fun i j =>
                    if lastrow ≤ i ∧ i < row ∧ j < out₂.w then
                      (erodeKernel (img.rowSlice (lastrow - b₂.radius)
                        (min img.h (row + b₂.radius))) b₂.selem).data
                        ((if lastrow - b₂.radius = 0 then 0 else b₂.radius) + (i - lastrow)) j
                    else out₂.data i j⟩,
                  erodeKernel (img.rowSlice (lastrow - b₂.radius)
                    (min img.h (row + b₂.radius))) b₂.selem) := by
              rw [← hrad, ← hsel]
              exact erode_in_band_run img out₂ b₁.selem g₂ lastrow row b₁.radius hc1 hc2
                (hc3.trans hh) (hc4.trans hw) hc5 (ghh.symm.trans hc6) (gww.symm.trans hc7) hc8
            have herr' : (runBands img o₁ rest₁ row).err = none := by
              rw [show (runBands img out₁ ((row, b₁) :: rest₁) lastrow).err
                    = (runBands i₁ o₁ rest₁ row).err from by
                simp only [runBands, hbuf₁, her₁], hi₁] at herr
              exact herr
            simp only [runBands, hbuf₁, hbuf₂, her₁, her₂]
            rw [hi₁]
            obtain ⟨iherr, ihagree⟩ := ih rest₂ img o₁
              ⟨out₂.h, out₂.w, fun i j =>
                if lastrow ≤ i ∧ i < row ∧ j < out₂.w then
                  (erodeKernel (img.rowSlice (lastrow - b₂.radius)
                    (min img.h (row + b₂.radius))) b₂.selem).data
                    ((if lastrow - b₂.radius = 0 then 0 else b₂.radius) + (i - lastrow)) j
                else out₂.data i j⟩
              row hrest (by rw [ho₁]; exact hh) (by rw [ho₁]; exact hw) herr'
            refine ⟨iherr, ?_⟩
            intro i j hi₁' hi₂' hj
            simp only [lastKeyFrom] at hi₂'
            by_cases hcase : row ≤ i
            · exact ihagree i j hcase hi₂' (by rw [ho₁]; exact hj)
            · push_neg at hcase
              rw [runBands_lower rest₁ img o₁ row i j hcase,
                  runBands_lower rest₂ img _ row i j hcase]
              rw [ho₁]
              simp only []
              rw [← hrad, ← hsel]
              have hg₁ : lastrow ≤ i ∧ i < row ∧ j < out₁.w := ⟨hi₁', hcase, hj⟩
              have hg₂ : lastrow ≤ i ∧ i < row ∧ j < out₂.w :=
                ⟨hi₁', hcase, lt_of_lt_of_eq hj hw⟩
              rw [if_pos hg₁, if_pos hg₂]

theorem selemOf_h (shape : ShapeKind) (r : Nat) : (selemOf shape r).h = 2 * r + 1 := by
  cases shape <;> rfl

theorem addBand_ok (m : Morpher) (maxrow radius : Nat) (shape : ShapeKind) (hr : 1 ≤ radius) :
    addBand m maxrow radius shape =
      .ok ⟨insertBand m.diBands maxrow ⟨shape, radius, selemOf shape radius, none⟩, false⟩ := by
  unfold addBand
  rw [if_pos hr]

theorem setupBands_cons (H W row lastrow : Nat) (b : BandInfo)
    (rest rest2 : List (Nat × BandInfo))
    (h0 : 0 ≤ min (H : Int) ((row : Int) + (b.radius : Int))
      - max 0 ((lastrow : Int) - (b.radius : Int)))
    (hrec : setupBands H W rest row = .ok rest2) :
    setupBands H W ((row, b) :: rest) lastrow =
      .ok ((row, { b with buf := some (Grid.mk
        ((min (H : Int) ((row : Int) + (b.radius : Int))
          - max 0 ((lastrow : Int) - (b.radius : Int))).toNat) W (fun _ _ => false)) }) :: rest2) := by
  simp only [setupBands]
  rw [if_pos h0, hrec]

theorem setup_ok (m : Morpher) (H W : Nat) (bands : List (Nat × BandInfo))
    (h : setupBands H W m.diBands 0 = .ok bands) :
    setup m H W = .ok ⟨bands, true⟩ := by
  unfold setup
  rw [h]

theorem setupBands_shapes (l : List (Nat × BandInfo)) :
    ∀ (l2 : List (Nat × BandInfo)) (H W lastrow : Nat),
    setupBands H W l lastrow = .ok l2 → BufShapesOk H W lastrow l2 := by
  induction l with
  | nil =>
    intro l2 H W lastrow h
    simp only [setupBands] at h
    rw [Except.ok.injEq] at h
    rw [← h]
    trivial
  | cons hd rest ih =>
    intro l2 H W lastrow h
    obtain ⟨row, b⟩ := hd
    simp only [setupBands] at h
    by_cases h0 : 0 ≤ min (H : Int) ((row : Int) + (b.radius : Int))
        - max 0 ((lastrow : Int) - (b.radius : Int))
    · rw [if_pos h0] at h
      cases hrec : setupBands H W rest row with
      | error e => rw [hrec] at h; exact absurd h (by simp)
      | ok rest2 =>
        rw [hrec] at h
        rw [Except.ok.injEq] at h
        rw [← h]
        refine ⟨⟨_, rfl, ?_, rfl⟩, ih rest2 H W row hrec⟩
        simp only []
        omega
    · rw [if_neg h0] at h
      exact absurd h (by simp)

theorem runBands_cons_ok (img out o2 bb2 : Grid) (row lastrow : Nat) (b : BandInfo) (g : Grid)
    (rest : List (Nat × BandInfo)) (hbuf : b.buf = some g)
    (her : erode_in_band img lastrow row out b.radius b.selem g = .ok (img, o2, bb2)) :
    runBands img out ((row, b) :: rest) lastrow =
      ⟨(runBands img o2 rest row).img, (runBands img o2 rest row).out,
       (row, { b with buf := some bb2 }) :: (runBands img o2 rest row).bands,
       (runBands img o2 rest row).err⟩ := by
  simp only [runBands, hbuf, her]

/-- C2: for every boolean image of shape (H, W) with H >= 1 and a single-band
configuration with upperBound = H, any radius r >= 1 and any shape kind,
after setup((H, W)) the grid returned by binary_erosion equals the erosion of
the whole image computed directly with that band's structuring element. -/
theorem single_band_equivalence (H W r : Nat) (shape : ShapeKind) (img : Grid)
    (init : Nat → Nat → Bool) (hH : 1 ≤ H) (hr : 1 ≤ r)
    (hih : img.h = H) (hiw : img.w = W) :
    ∃ (m1 m2 mf : Morpher) (out : Grid),
      addBand initMorpher H r shape = .ok m1 ∧
      setup m1 H W = .ok m2 ∧
      binary_erosion m2 img init = .ok (mf, img, out) ∧
      Grid.eqOn out (erodeKernel img (selemOf shape r)) := by
  have h1 : addBand initMorpher H r shape =
      .ok ⟨[(H, ⟨shape, r, selemOf shape r, none⟩)], false⟩ :=
    addBand_ok initMorpher H r shape hr
  have h2 : setup (⟨[(H, ⟨shape, r, selemOf shape r, none⟩)], false⟩ : Morpher) H W =
      .ok ⟨[(H, ⟨shape, r, selemOf shape r, some (Grid.mk
        ((min (H : Int) ((H : Int) + (r : Int)) - max 0 ((0 : Int) - (r : Int))).toNat)
        W (fun _ _ => false))⟩)], true⟩ :=
    setup_ok _ H W _ (setupBands_cons H W H 0 ⟨shape, r, selemOf shape r, none⟩ [] []
      (by simp only []; omega) rfl)
  have her : erode_in_band img 0 H (⟨img.h, img.w, init⟩ : Grid) r (selemOf shape r)
      (Grid.mk ((min (H : Int) ((H : Int) + (r : Int)) - max 0 ((0 : Int) - (r : Int))).toNat)
        W (fun _ _ => false)) =
      .ok (img,
        ⟨img.h, img.w, fun i j =>
          if 0 ≤ i ∧ i < H ∧ j < img.w then (erodeKernel img (selemOf shape r)).data i j
          else init i j⟩,
        erodeKernel (img.rowSlice (0 - r) (min img.h (H + r))) (selemOf shape r)) := by
    exact erode_in_band_ok img ⟨img.h, img.w, init⟩ (selemOf shape r) _ 0 H r
      (by omega) (by omega) rfl rfl hr (by simp only []; rw [hih]; omega) hiw.symm
      (Or.inl rfl) (Or.inl hih.symm) (selemOf_h shape r)
  have hrB : runBands img (⟨img.h, img.w, init⟩ : Grid)
      [(H, ⟨shape, r, selemOf shape r, some (Grid.mk
        ((min (H : Int) ((H : Int) + (r : Int)) - max 0 ((0 : Int) - (r : Int))).toNat)
        W (fun _ _ => false))⟩)] 0 =
      ⟨img,
       ⟨img.h, img.w, fun i j =>
          if 0 ≤ i ∧ i < H ∧ j < img.w then (erodeKernel img (selemOf shape r)).data i j
          else init i j⟩,
       [(H, ⟨shape, r, selemOf shape r,
          some (erodeKernel (img.rowSlice (0 - r) (min img.h (H + r))) (selemOf shape r))⟩)],
       none⟩ := by
    exact runBands_cons_ok img ⟨img.h, img.w, init⟩ _ _ H 0 _ _ [] rfl her
  have h3 : binary_erosion (⟨[(H, ⟨shape, r, selemOf shape r, some (Grid.mk
        ((min (H : Int) ((H : Int) + (r : Int)) - max 0 ((0 : Int) - (r : Int))).toNat)
        W (fun _ _ => false))⟩)], true⟩ : Morpher) img init =
      .ok (⟨[(H, ⟨shape, r, selemOf shape r,
          some (erodeKernel (img.rowSlice (0 - r) (min img.h (H + r))) (selemOf shape r))⟩)], true⟩,
        img,
        ⟨img.h, img.w, fun i j =>
          if 0 ≤ i ∧ i < H ∧ j < img.w then (erodeKernel img (selemOf shape r)).data i j
          else init i j⟩) := by
    unfold binary_erosion
    rw [if_pos (rfl : ((⟨[(H, ⟨shape, r, selemOf shape r, some (Grid.mk
        ((min (H : Int) ((H : Int) + (r : Int)) - max 0 ((0 : Int) - (r : Int))).toNat)
        W (fun _ _ => false))⟩)], true⟩ : Morpher)).isSetup = true)]
    simp only []
    rw [hrB]
  refine ⟨_, _, _, _, h1, h2, h3, ?_⟩
  refine ⟨rfl, rfl, ?_⟩
  intro i hi j hj
  have hi2 : i < img.h := hi
  have hj2 : j < img.w := hj
  simp only []
  rw [if_pos ⟨Nat.zero_le i, by omega, hj2⟩]

theorem binary_erosion_run (m : Morpher) (img : Grid) (init : Nat → Nat → Bool)
    (hset : m.isSetup = true) :
    binary_erosion m img init =
      match (runBands img ⟨img.h, img.w, init⟩ m.diBands 0).err with
      | none => .ok ({ m with diBands := (runBands img ⟨img.h, img.w, init⟩ m.diBands 0).bands },
          (runBands img ⟨img.h, img.w, init⟩ m.diBands 0).img,
          (runBands img ⟨img.h, img.w, init⟩ m.diBands 0).out)
      | some e => .error e := by
  unfold binary_erosion
  rw [if_pos hset]

/-- C1 (amended): two adjacent bands with upper bounds b and H, equal radius r
and equal shape produce, for every image of shape (H, W), output identical at
every pixel to a single whole-image erosion with that structuring element,
provided the boundary is more than radius rows from both image edges
(r < b and b + r < H). -/
theorem seamless_boundary_amended (H W b r : Nat) (shape : ShapeKind) (img : Grid)
    (init : Nat → Nat → Bool) (hr : 1 ≤ r) (hrb : r < b) (hbH : b + r < H)
    (hih : img.h = H) (hiw : img.w = W) :
    ∃ (m1 m2 m3 mf : Morpher) (out : Grid),
      addBand initMorpher b r shape = .ok m1 ∧
      addBand m1 H r shape = .ok m2 ∧
      setup m2 H W = .ok m3 ∧
      binary_erosion m3 img init = .ok (mf, img, out) ∧
      Grid.eqOn out (erodeKernel img (selemOf shape r)) := by
  have h1 : addBand initMorpher b r shape =
      .ok ⟨[(b, ⟨shape, r, selemOf shape r, none⟩)], false⟩ :=
    addBand_ok initMorpher b r shape hr
  have h2 : addBand (⟨[(b, ⟨shape, r, selemOf shape r, none⟩)], false⟩ : Morpher) H r shape =
      .ok ⟨[(b, ⟨shape, r, selemOf shape r, none⟩), (H, ⟨shape, r, selemOf shape r, none⟩)],
        false⟩ := by
    rw [addBand_ok _ H r shape hr]
    simp only [insertBand]
    rw [if_neg (by omega), if_neg (by omega)]
  have hsb2 : setupBands H W [(H, ⟨shape, r, selemOf shape r, none⟩)] b =
      .ok [(H, ⟨shape, r, selemOf shape r, some (Grid.mk
        ((min (H : Int) ((H : Int) + (r : Int)) - max 0 ((b : Int) - (r : Int))).toNat)
        W (fun _ _ => false))⟩)] :=
    setupBands_cons H W H b ⟨shape, r, selemOf shape r, none⟩ [] []
      (by simp only []; omega) rfl
  have hsb1 : setupBands H W [(b, ⟨shape, r, selemOf shape r, none⟩),
        (H, ⟨shape, r, selemOf shape r, none⟩)] 0 =
      .ok [(b, ⟨shape, r, selemOf shape r, some (Grid.mk
          ((min (H : Int) ((b : Int) + (r : Int)) - max 0 ((0 : Int) - (r : Int))).toNat)
          W (fun _ _ => false))⟩),
        (H, ⟨shape, r, selemOf shape r, some (Grid.mk
          ((min (H : Int) ((H : Int) + (r : Int)) - max 0 ((b : Int) - (r : Int))).toNat)
          W (fun _ _ => false))⟩)] :=
    setupBands_cons H W b 0 ⟨shape, r, selemOf shape r, none⟩ _ _
      (by simp only []; omega) hsb2
  have h3 : setup (⟨[(b, ⟨shape, r, selemOf shape r, none⟩),
        (H, ⟨shape, r, selemOf shape r, none⟩)], false⟩ : Morpher) H W =
      .ok ⟨[(b, ⟨shape, r, selemOf shape r, some (Grid.mk
          ((min (H : Int) ((b : Int) + (r : Int)) - max 0 ((0 : Int) - (r : Int))).toNat)
          W (fun _ _ => false))⟩),
        (H, ⟨shape, r, selemOf shape r, some (Grid.mk
          ((min (H : Int) ((H : Int) + (r : Int)) - max 0 ((b : Int) - (r : Int))).toNat)
          W (fun _ _ => false))⟩)], true⟩ :=
    setup_ok _ H W _ hsb1
  have her1 : erode_in_band img 0 b (⟨img.h, img.w, init⟩ : Grid) r (selemOf shape r)
      (Grid.mk ((min (H : Int) ((b : Int) + (r : Int)) - max 0 ((0 : Int) - (r : Int))).toNat)
        W (fun _ _ => false)) =
      .ok (img,
        ⟨img.h, img.w, fun i j =>
          if 0 ≤ i ∧ i < b ∧ j < img.w then (erodeKernel img (selemOf shape r)).data i j
          else init i j⟩,
        erodeKernel (img.rowSlice (0 - r) (min img.h (b + r))) (selemOf shape r)) :=
    erode_in_band_ok img ⟨img.h, img.w, init⟩ (selemOf shape r) _ 0 b r
      (by omega) (by omega) rfl rfl hr (by simp only []; rw [hih]; omega) hiw.symm
      (Or.inl rfl) (Or.inr (by omega)) (selemOf_h shape r)
  have her2 : erode_in_band img b H
      (⟨img.h, img.w, fun i j =>
        if 0 ≤ i ∧ i < b ∧ j < img.w then (erodeKernel img (selemOf shape r)).data i j
        else init i j⟩ : Grid) r (selemOf shape r)
      (Grid.mk ((min (H : Int) ((H : Int) + (r : Int)) - max 0 ((b : Int) - (r : Int))).toNat)
        W (fun _ _ => false)) =
      .ok (img,
        ⟨img.h, img.w, fun i j =>
          if b ≤ i ∧ i < H ∧ j < img.w then (erodeKernel img (selemOf shape r)).data i j
          else if 0 ≤ i ∧ i < b ∧ j < img.w then (erodeKernel img (selemOf shape r)).data i j
          else init i j⟩,
        erodeKernel (img.rowSlice (b - r) (min img.h (H + r))) (selemOf shape r)) :=
    erode_in_band_ok img
      ⟨img.h, img.w, fun i j =>
        if 0 ≤ i ∧ i < b ∧ j < img.w then (erodeKernel img (selemOf shape r)).data i j
        else init i j⟩ (selemOf shape r) _ b H r
      (by omega) (by omega) rfl rfl hr (by simp only []; rw [hih]; omega) hiw.symm
      (Or.inr hrb) (Or.inl hih.symm) (selemOf_h shape r)
  have step1 := runBands_cons_ok img ⟨img.h, img.w, init⟩ _ _ b 0
    ⟨shape, r, selemOf shape r, some (Grid.mk
      ((min (H : Int) ((b : Int) + (r : Int)) - max 0 ((0 : Int) - (r : Int))).toNat)
      W (fun _ _ => false))⟩ _
    [(H, ⟨shape, r, selemOf shape r, some (Grid.mk
      ((min (H : Int) ((H : Int) + (r : Int)) - max 0 ((b : Int) - (r : Int))).toNat)
      W (fun _ _ => false))⟩)] rfl her1
  have step2 := runBands_cons_ok img
    (⟨img.h, img.w, fun i j =>
      if 0 ≤ i ∧ i < b ∧ j < img.w then (erodeKernel img (selemOf shape r)).data i j
      else init i j⟩ : Grid) _ _ H b
    ⟨shape, r, selemOf shape r, some (Grid.mk
      ((min (H : Int) ((H : Int) + (r : Int)) - max 0 ((b : Int) - (r : Int))).toNat)
      W (fun _ _ => false))⟩ _ [] rfl her2
  have h4 : binary_erosion (⟨[(b, ⟨shape, r, selemOf shape r, some (Grid.mk
          ((min (H : Int) ((b : Int) + (r : Int)) - max 0 ((0 : Int) - (r : Int))).toNat)
          W (fun _ _ => false))⟩),
        (H, ⟨shape, r, selemOf shape r, some (Grid.mk
          ((min (H : Int) ((H : Int) + (r : Int)) - max 0 ((b : Int) - (r : Int))).toNat)
          W (fun _ _ => false))⟩)], true⟩ : Morpher) img init =
      .ok (⟨[(b, ⟨shape, r, selemOf shape r,
            some (erodeKernel (img.rowSlice (0 - r) (min img.h (b + r))) (selemOf shape r))⟩),
          (H, ⟨shape, r, selemOf shape r,
            some (erodeKernel (img.rowSlice (b - r) (min img.h (H + r))) (selemOf shape r))⟩)],
          true⟩,
        img,
        ⟨img.h, img.w, fun i j =>
          if b ≤ i ∧ i < H ∧ j < img.w then (erodeKernel img (selemOf shape r)).data i j
          else if 0 ≤ i ∧ i < b ∧ j < img.w then (erodeKernel img (selemOf shape r)).data i j
          else init i j⟩) := by
    rw [binary_erosion_run _ img init rfl]
    simp only []
    rw [step1]
    simp only []
    rw [step2]
    simp only [runBands]
  refine ⟨_, _, _, _, _, h1, h2, h3, h4, ?_⟩
  refine ⟨rfl, rfl, ?_⟩
  intro i hi j hj
  have hi2 : i < img.h := hi
  have hj2 : j < img.w := hj
  simp only []
  rcases lt_or_ge i b with hib | hib
  · rw [if_neg (by omega), if_pos ⟨Nat.zero_le i, hib, hj2⟩]
  · rw [if_pos ⟨hib, by omega, hj2⟩]

/-- C1 (counterexample): with H = 3, W = 1, boundary b = 1 and shared radius
r = 1 (square), so 0 < b < H as the claim requires, setup succeeds but
binary_erosion raises the step-5 size assertion in the second band, so no
grid equal to the whole-image erosion is returned. -/
theorem seamless_boundary_cex :
    ((0 : Nat) < 1 ∧ (1 : Nat) < 3) ∧
    (getOk initMorpher (setup (getOk initMorpher (addBand (getOk initMorpher
      (addBand initMorpher 1 1 .square)) 3 1 .square)) 3 1)).isSetup = true ∧
    binary_erosion (getOk initMorpher (setup (getOk initMorpher (addBand (getOk initMorpher
      (addBand initMorpher 1 1 .square)) 3 1 .square)) 3 1))
      ⟨3, 1, fun _ _ => true⟩ (fun _ _ => false) =
      .error "assert (rowend-rowstart) == (bufmax-bufmin)" :=
  ⟨by decide, rfl, rfl⟩

/-- C1 (witness): the amended seamless-boundary theorem instantiated at
H = 5, W = 2, b = 2, r = 1, square shape, on an all-true image. -/
theorem seamless_boundary_wit :
    ∃ (m1 m2 m3 mf : Morpher) (out : Grid),
      addBand initMorpher 2 1 .square = .ok m1 ∧
      addBand m1 5 1 .square = .ok m2 ∧
      setup m2 5 2 = .ok m3 ∧
      binary_erosion m3 ⟨5, 2, fun _ _ => true⟩ (fun _ _ => false) =
        .ok (mf, ⟨5, 2, fun _ _ => true⟩, out) ∧
      Grid.eqOn out (erodeKernel ⟨5, 2, fun _ _ => true⟩ (selemOf .square 1)) :=
  seamless_boundary_amended 5 2 2 1 .square ⟨5, 2, fun _ _ => true⟩ (fun _ _ => false)
    (by decide) (by decide) (by decide) rfl rfl

/-- C2 (witness): the single-band equivalence theorem instantiated at
H = 3, W = 2, r = 2, square shape, on a diagonal image. -/
theorem single_band_equivalence_wit :
    ∃ (m1 m2 mf : Morpher) (out : Grid),
      addBand initMorpher 3 2 .square = .ok m1 ∧
      setup m1 3 2 = .ok m2 ∧
      binary_erosion m2 ⟨3, 2, fun i j => decide (i = j)⟩ (fun _ _ => false) =
        .ok (mf, ⟨3, 2, fun i j => decide (i = j)⟩, out) ∧
      Grid.eqOn out (erodeKernel ⟨3, 2, fun i j => decide (i = j)⟩ (selemOf .square 2)) :=
  single_band_equivalence 3 2 2 .square ⟨3, 2, fun i j => decide (i = j)⟩ (fun _ _ => false)
    (by decide) (by decide) rfl rfl

/-- C4 (counterexample): a call with rowstart = 1, rowend = 2, radius = 2 on a
10x1 image, with the scratch buffer sized exactly as setup computes
(min(10, 2+2) - max(0, 1-2) = 4 rows), satisfies every stated precondition
yet fails the step-5 size assertion. -/
theorem erode_assert_cex :
    ((1 : Nat) < 2 ∧ (2 : Nat) ≤ 10 ∧ (1 : Nat) ≤ 2 ∧
      (Grid.mk 4 1 (fun _ _ => false)).h = min 10 (2 + 2) - (1 - 2) ∧
      (Grid.mk 4 1 (fun _ _ => false)).w = 1) ∧
    erode_in_band ⟨10, 1, fun _ _ => false⟩ 1 2 ⟨10, 1, fun _ _ => false⟩ 2 (squareSelem 2)
      ⟨4, 1, fun _ _ => false⟩ = .error "assert (rowend-rowstart) == (bufmax-bufmin)" :=
  ⟨by decide, rfl⟩

/-- C4 (amended): under the stated preconditions of erode_in_band plus the
band-alignment conditions (rowStart is 0 or exceeds radius, and rowEnd is the
image height or ends more than radius rows above it), the step-5 size
assertion holds and the call succeeds; without those alignment conditions the
assertion can fire even though the buffer is sized exactly as setup
computes. -/
theorem erode_assert_amended (img out selem bandbuf : Grid) (rowstart rowend radius : Nat)
    (hc1 : rowend ≤ img.h) (hc2 : rowstart < rowend)
    (hc3 : img.h = out.h) (hc4 : img.w = out.w) (hc5 : 1 ≤ radius)
    (hc6 : bandbuf.h = min img.h (rowend + radius) - (rowstart - radius))
    (hc7 : bandbuf.w = img.w)
    (hs : rowstart = 0 ∨ radius < rowstart)
    (he : rowend = img.h ∨ rowend + radius < img.h) :
    isOkB (erode_in_band img rowstart rowend out radius selem bandbuf) = true := by
  have hc8 : (rowend : Int) - (rowstart : Int) =
      (if min img.h (rowend + radius) = img.h
        then ((min img.h (rowend + radius) - (rowstart - radius) : Nat) : Int)
        else ((min img.h (rowend + radius) - (rowstart - radius) : Nat) : Int) - (radius : Int))
      - (((if rowstart - radius = 0 then 0 else radius : Nat) : Int)) := by
    split_ifs <;> omega
  rw [erode_in_band_run img out selem bandbuf rowstart rowend radius
    hc1 hc2 hc3 hc4 hc5 hc6 hc7 hc8]
  rfl

/-- C4 (witness): the amended assertion theorem instantiated at a first band
covering rows [0, 4) of a 6x1 image with radius 2 and a correctly sized
6-row buffer. -/
theorem erode_assert_wit :
    isOkB (erode_in_band ⟨7, 1, fun _ _ => false⟩ 0 4 ⟨7, 1, fun _ _ => false⟩ 2
      (squareSelem 2) ⟨6, 1, fun _ _ => false⟩) = true :=
  erode_assert_amended ⟨7, 1, fun _ _ => false⟩ ⟨7, 1, fun _ _ => false⟩ (squareSelem 2)
    ⟨6, 1, fun _ _ => false⟩ 0 4 2 (by decide) (by decide) rfl rfl (by decide)
    (by decide) rfl (Or.inl rfl) (Or.inr (by decide))

/-- C5 (counterexample): on a 4x1 image with bands upperBound 1 (radius 1),
upperBound 2 (radius 2) and upperBound 4 (radius 1), all square, setup
succeeds, the middle band's radius 2 exceeds its own height 2 - 1 = 1, and
binary_erosion crashes with the step-5 size assertion instead of completing. -/
theorem edge_clamp_cex :
    ((2 : Nat) - 1 < 2) ∧
    (getOk initMorpher (setup (getOk initMorpher (addBand (getOk initMorpher
      (addBand (getOk initMorpher (addBand initMorpher 1 1 .square)) 2 2 .square))
      4 1 .square)) 4 1)).isSetup = true ∧
    binary_erosion (getOk initMorpher (setup (getOk initMorpher (addBand (getOk initMorpher
      (addBand (getOk initMorpher (addBand initMorpher 1 1 .square)) 2 2 .square))
      4 1 .square)) 4 1)) ⟨4, 1, fun _ _ => true⟩ (fun _ _ => false) =
      .error "assert (rowend-rowstart) == (bufmax-bufmin)" :=
  ⟨by decide, rfl, rfl⟩

/-- C5 (amended): a band whose padded window would leave [0, height) is
clamped to the true image edges — the band's rows are eroded exactly as in a
whole-image erosion whose out-of-image neighbors read false (no wraparound,
no synthetic fill) — and erode_in_band completes without crashing even when
the radius exceeds the band's own height, provided the band satisfies the
alignment conditions (start 0 or greater than radius; end at the image height
or more than radius above it). -/
theorem edge_clamp_amended (img out selem bandbuf : Grid) (rowstart rowend radius : Nat)
    (_hbig : rowend - rowstart < radius)
    (hc1 : rowend ≤ img.h) (hc2 : rowstart < rowend)
    (hc3 : img.h = out.h) (hc4 : img.w = out.w) (hc5 : 1 ≤ radius)
    (hc6 : bandbuf.h = min img.h (rowend + radius) - (rowstart - radius))
    (hc7 : bandbuf.w = img.w)
    (hs : rowstart = 0 ∨ radius < rowstart)
    (he : rowend = img.h ∨ rowend + radius < img.h)
    (hsel : selem.h = 2 * radius + 1) :
    erode_in_band img rowstart rowend out radius selem bandbuf =
      .ok (img,
        ⟨out.h, out.w, fun i j =>
          if rowstart ≤ i ∧ i < rowend ∧ j < out.w then (erodeKernel img selem).data i j
          else out.data i j⟩,
        erodeKernel (img.rowSlice (rowstart - radius) (min img.h (rowend + radius))) selem) :=
  erode_in_band_ok img out selem bandbuf rowstart rowend radius
    hc1 hc2 hc3 hc4 hc5 hc6 hc7 hs he hsel

/-- C5 (witness): the amended clamping theorem instantiated at a middle band
covering only row 5 of a 10x1 image with radius 2 (radius larger than the
band height) and a correctly sized 5-row buffer. -/
theorem edge_clamp_wit :
    erode_in_band ⟨10, 1, fun _ _ => true⟩ 5 6 ⟨10, 1, fun _ _ => true⟩ 2
      (squareSelem 2) ⟨5, 1, fun _ _ => false⟩ =
      .ok (⟨10, 1, fun _ _ => true⟩,
        ⟨(⟨10, 1, fun _ _ => true⟩ : Grid).h, (⟨10, 1, fun _ _ => true⟩ : Grid).w, fun i j =>
          if 5 ≤ i ∧ i < 6 ∧ j < (⟨10, 1, fun _ _ => true⟩ : Grid).w then
            (erodeKernel ⟨10, 1, fun _ _ => true⟩ (squareSelem 2)).data i j
          else (⟨10, 1, fun _ _ => true⟩ : Grid).data i j⟩,
        erodeKernel ((⟨10, 1, fun _ _ => true⟩ : Grid).rowSlice (5 - 2) (min 10 (6 + 2)))
          (squareSelem 2)) :=
  edge_clamp_amended ⟨10, 1, fun _ _ => true⟩ ⟨10, 1, fun _ _ => true⟩ (squareSelem 2)
    ⟨5, 1, fun _ _ => false⟩ 5 6 2 (by decide) (by decide) (by decide) rfl rfl
    (by decide) (by decide) rfl (Or.inr (by decide)) (Or.inr (by decide)) rfl

/-- C3 (counterexample): in the concrete scenario the erosion succeeds and
both scratch buffers are shaped (9, 10), but the returned grid has pixel
(0, 4) false — row 0 is not part of the claimed only-column-4 region — so the
returned grid is not the grid the claim describes. -/
theorem concrete_scenario_cex :
    isOkB (binary_erosion scenarioMorpher scenarioImg (fun _ _ => false)) = true ∧
    scenarioResult.2.2.data 0 4 = false ∧
    claimedOutput.data 0 4 = true ∧
    ¬ Grid.eqOn scenarioResult.2.2 claimedOutput := by
  refine ⟨rfl, by decide, by decide, by decide⟩

/-- C3 (amended): in the concrete scenario both bands' scratch buffers have
shape (9, 10) after setup, and binary_erosion returns exactly the grid with
row 0 entirely false, only column 4 true in rows 1-5 and 8-12, columns 3-5
true in rows 6-7, and rows 13-14 entirely false. -/
theorem concrete_scenario_amended :
    scenarioMorpher.isSetup = true ∧
    scenarioMorpher.diBands.map (fun p => (p.1, p.2.buf.map (fun g => (g.h, g.w)))) =
      [(8, some (9, 10)), (15, some (9, 10))] ∧
    isOkB (binary_erosion scenarioMorpher scenarioImg (fun _ _ => false)) = true ∧
    Grid.eqOn scenarioResult.2.2 actualOutput := by
  refine ⟨rfl, by decide, rfl, by decide⟩

/-- C6: whenever setup((H, W)) succeeds, every band's scratch buffer is a
boolean grid of shape (min(H, upperBound + radius) - max(0, bandStart -
radius), W), where bandStart is the previous band's upperBound in iteration
order (0 for the first band). -/
theorem setup_buffer_shapes (m m2 : Morpher) (H W : Nat) (hs : setup m H W = .ok m2) :
    BufShapesOk H W 0 m2.diBands := by
  unfold setup at hs
  cases hrec : setupBands H W m.diBands 0 with
  | error e => rw [hrec] at hs; exact absurd hs (by simp)
  | ok bands =>
    rw [hrec] at hs
    rw [Except.ok.injEq] at hs
    rw [← hs]
    exact setupBands_shapes m.diBands bands H W 0 hrec

/-- C6 (witness): the buffer-shape contract instantiated on the concrete
two-band scenario configuration set up for a 15x10 image. -/
theorem setup_buffer_shapes_wit :
    BufShapesOk 15 10 0 (getOk initMorpher (setup (getOk initMorpher (addBand
      (getOk initMorpher (addBand initMorpher 8 1 .diamond)) 15 2 .square)) 15 10)).diBands :=
  setup_buffer_shapes (getOk initMorpher (addBand (getOk initMorpher
    (addBand initMorpher 8 1 .diamond)) 15 2 .square)) _ 15 10 rfl

theorem addBand_isSetup (m m2 : Morpher) (a r : Nat) (s : ShapeKind)
    (h : addBand m a r s = .ok m2) : m2.isSetup = false := by
  unfold addBand at h
  split_ifs at h
  rw [Except.ok.injEq] at h
  rw [← h]

theorem runOps_noSetup (ops : List MOp) : ∀ (m0 m : Morpher),
    runOps m0 ops = .ok m → (∀ op ∈ ops, isSetupOp op = false) →
    m0.isSetup = false → m.isSetup = false := by
  induction ops with
  | nil =>
    intro m0 m h _ h0
    unfold runOps at h
    rw [Except.ok.injEq] at h
    rw [← h]
    exact h0
  | cons op rest ih =>
    intro m0 m h hall h0
    cases op with
    | addB a r s =>
      unfold runOps at h
      cases hstep : addBand m0 a r s with
      | error e => rw [hstep] at h; exact absurd h (by simp)
      | ok m1 =>
        rw [hstep] at h
        exact ih m1 m h (fun op hop => hall op (List.mem_cons_of_mem _ hop))
          (addBand_isSetup m0 m1 a r s hstep)
    | setupOp hh ww =>
      have := hall (.setupOp hh ww) (List.mem_cons_self _ _)
      simp [isSetupOp] at this

theorem runOps_flag (ops : List MOp) : ∀ (m0 m : Morpher) (i a r : Nat) (s : ShapeKind),
    runOps m0 ops = .ok m → ops.get? i = some (.addB a r s) →
    (∀ j, i < j → ∀ op, ops.get? j = some op → isSetupOp op = false) →
    m.isSetup = false := by
  induction ops with
  | nil =>
    intro m0 m i a r s _ hi _
    simp [List.get?] at hi
  | cons op rest ih =>
    intro m0 m i a r s h hi hafter
    cases i with
    | zero =>
      rw [List.get?_cons_zero, Option.some.injEq] at hi
      subst hi
      unfold runOps at h
      cases hstep : addBand m0 a r s with
      | error e => rw [hstep] at h; exact absurd h (by simp)
      | ok m1 =>
        rw [hstep] at h
        refine runOps_noSetup rest m1 m h ?_ (addBand_isSetup m0 m1 a r s hstep)
        intro op hop
        obtain ⟨n, hn⟩ := List.get?_of_mem hop
        exact hafter (n + 1) (by omega) op (by rw [List.get?_cons_succ]; exact hn)
    | succ i2 =>
      rw [List.get?_cons_succ] at hi
      cases op with
      | addB a2 r2 s2 =>
        unfold runOps at h
        cases hstep : addBand m0 a2 r2 s2 with
        | error e => rw [hstep] at h; exact absurd h (by simp)
        | ok m1 =>
          rw [hstep] at h
          refine ih m1 m i2 a r s h hi ?_
          intro j hj op hop
          exact hafter (j + 1) (by omega) op (by rw [List.get?_cons_succ]; exact hop)
      | setupOp hh ww =>
        unfold runOps at h
        cases hstep : setup m0 hh ww with
        | error e => rw [hstep] at h; exact absurd h (by simp)
        | ok m1 =>
          rw [hstep] at h
          refine ih m1 m i2 a r s h hi ?_
          intro j hj op hop
          exact hafter (j + 1) (by omega) op (by rw [List.get?_cons_succ]; exact hop)

/-- C7: for every sequence of addBand/setup calls starting from a fresh
VariableMorpher, if some addBand call has no later setup call, then
binary_erosion on the resulting state fails with the setup-state error and
returns no output. -/
theorem stale_buffer_guard (ops : List MOp) (m : Morpher) (i a r : Nat) (s : ShapeKind)
    (img : Grid) (init : Nat → Nat → Bool)
    (hrun : runOps initMorpher ops = .ok m)
    (hi : ops.get? i = some (.addB a r s))
    (hafter : ∀ j, i < j → ∀ op, ops.get? j = some op → isSetupOp op = false) :
    binary_erosion m img init =
      .error "You must call setup() before you can call this function." := by
  have hflag := runOps_flag ops initMorpher m i a r s hrun hi hafter
  unfold binary_erosion
  rw [if_neg (by rw [hflag]; simp)]

/-- C7 (witness): a single addBand(3, 1, square) with no later setup leaves
the morpher unready and binary_erosion rejects the call. -/
theorem stale_buffer_guard_wit :
    binary_erosion (getOk initMorpher (runOps initMorpher [MOp.addB 3 1 .square]))
      ⟨2, 2, fun _ _ => true⟩ (fun _ _ => false) =
      .error "You must call setup() before you can call this function." :=
  stale_buffer_guard [MOp.addB 3 1 .square] _ 0 3 1 .square ⟨2, 2, fun _ _ => true⟩
    (fun _ _ => false) rfl rfl
    (by
      intro j hj op hop
      cases j with
      | zero => omega
      | succ n => simp [List.get?] at hop)

/-- C8 (counterexample): a band table whose last upperBound (1) is below the
image height (3) leaves rows 1-2 of the output unwritten; two successive
binary_erosion calls with the same bands and input both succeed but return
grids differing at pixel (1, 0) when the uninitialized output allocations
differ, so the outputs are not bit-identical. -/
theorem idempotence_cex :
    isOkB (binary_erosion repMorpher repImg (fun _ _ => false)) = true ∧
    isOkB (binary_erosion repRun1.1 repImg (fun _ _ => true)) = true ∧
    repRun1.2.2.data 1 0 ≠ repRun2.2.2.data 1 0 :=
  ⟨rfl, rfl, by decide⟩

/-- C8 (amended): two successive binary_erosion calls with unchanged bands
and input return grids that agree at every pixel of the written region —
all rows below the last band's upperBound — while pixels of trailing rows
come from the uninitialized output allocation and may differ. -/
theorem idempotence_amended (m : Morpher) (img : Grid) (init₁ init₂ : Nat → Nat → Bool)
    (m₁ m₂ : Morpher) (i₁ i₂ o₁ o₂ : Grid)
    (h1 : binary_erosion m img init₁ = .ok (m₁, i₁, o₁))
    (h2 : binary_erosion m₁ img init₂ = .ok (m₂, i₂, o₂)) :
    ∀ i j, i < lastKeyFrom 0 m.diBands → j < img.w → o₁.data i j = o₂.data i j := by
  unfold binary_erosion at h1
  split_ifs at h1 with hset
  · simp only [] at h1
    cases herr1 : (runBands img ⟨img.h, img.w, init₁⟩ m.diBands 0).err with
    | some e => rw [herr1] at h1; exact absurd h1 (by simp)
    | none =>
      rw [herr1] at h1
      simp only [] at h1
      rw [Except.ok.injEq, Prod.mk.injEq, Prod.mk.injEq] at h1
      obtain ⟨hm₁, hi₁, ho₁⟩ := h1
      unfold binary_erosion at h2
      split_ifs at h2 with hset2
      · simp only [] at h2
        cases herr2 : (runBands img ⟨img.h, img.w, init₂⟩ m₁.diBands 0).err with
        | some e => rw [herr2] at h2; exact absurd h2 (by simp)
        | none =>
          rw [herr2] at h2
          simp only [] at h2
          rw [Except.ok.injEq, Prod.mk.injEq, Prod.mk.injEq] at h2
          obtain ⟨hm₂, hi₂, ho₂⟩ := h2
          have hbands : m₁.diBands =
              (runBands img ⟨img.h, img.w, init₁⟩ m.diBands 0).bands := by
            rw [← hm₁]
          obtain ⟨he2, hagree⟩ := runBands_pair m.diBands
            ((runBands img ⟨img.h, img.w, init₁⟩ m.diBands 0).bands)
            img ⟨img.h, img.w, init₁⟩ ⟨img.h, img.w, init₂⟩ 0
            (runBands_shape m.diBands img ⟨img.h, img.w, init₁⟩ 0) rfl rfl herr1
          intro i j hik hjw
          rw [← ho₁, ← ho₂, hbands]
          exact hagree i j (Nat.zero_le i) hik hjw

/-- C8 (witness): the written-region agreement applied to the two concrete
successive runs (different uninitialized allocations) at written pixel
(0, 0). -/
theorem idempotence_wit : repRun1.2.2.data 0 0 = repRun2.2.2.data 0 0 :=
  idempotence_amended repMorpher repImg (fun _ _ => false) (fun _ _ => true)
    repRun1.1 repRun2.1 repRun1.2.1 repRun2.2.1 repRun1.2.2 repRun2.2.2
    rfl rfl 0 0 (by decide) (by decide)

/-- C9: addBand(0, radius, shape) is accepted for every radius >= 1, but a
set-up band table that contains a band with upperBound 0 (necessarily its
first band in ascending key order) makes the first erode_in_band call receive
rowStart = rowEnd = 0, so every binary_erosion call fails on the
rowstart < rowend assertion and never returns an output grid. -/
theorem zero_band_failure (m m2 : Morpher) (r : Nat) (s : ShapeKind) (img : Grid)
    (init : Nat → Nat → Bool) (hr : 1 ≤ r)
    (hset : m2.isSetup = true)
    (hmem : 0 ∈ m2.diBands.map Prod.fst)
    (hpw : List.Pairwise (· < ·) (m2.diBands.map Prod.fst))
    (hbufs : m2.diBands.all (fun p => p.2.buf.isSome) = true) :
    isOkB (addBand m 0 r s) = true ∧
    binary_erosion m2 img init = .error "assert rowstart < rowend" := by
  constructor
  · rw [addBand_ok m 0 r s hr]; rfl
  · cases hd : m2.diBands with
    | nil => rw [hd] at hmem; simp at hmem
    | cons p rest =>
      obtain ⟨k, b⟩ := p
      have hk : k = 0 := by
        rw [hd] at hmem hpw
        simp only [List.map_cons] at hmem hpw
        rcases List.mem_cons.mp hmem with h0 | h0
        · omega
        · have := (List.pairwise_cons.mp hpw).1 0 h0
          omega
      subst hk
      have hbuf : ∃ g, b.buf = some g := by
        rw [hd] at hbufs
        rw [List.all_cons, Bool.and_eq_true] at hbufs
        exact Option.isSome_iff_exists.mp hbufs.1
      obtain ⟨g, hg⟩ := hbuf
      rw [binary_erosion_run m2 img init hset, hd]
      have her : erode_in_band img 0 0 ⟨img.h, img.w, init⟩ b.radius b.selem g =
          .error "assert rowstart < rowend" := by
        unfold erode_in_band
        rw [if_pos (Nat.zero_le img.h), if_neg (lt_irrefl 0)]
      simp only [runBands, hg, her]

/-- C9 (witness): addBand(0, 1, square) is accepted, and after setup((5, 5))
the erosion of a 5x5 image fails on the rowstart < rowend assertion. -/
theorem zero_band_failure_wit :
    isOkB (addBand initMorpher 0 1 .square) = true ∧
    binary_erosion (getOk initMorpher (setup (getOk initMorpher
        (addBand initMorpher 0 1 .square)) 5 5))
      ⟨5, 5, fun _ _ => true⟩ (fun _ _ => false) = .error "assert rowstart < rowend" :=
  zero_band_failure initMorpher
    (getOk initMorpher (setup (getOk initMorpher (addBand initMorpher 0 1 .square)) 5 5))
    1 .square ⟨5, 5, fun _ _ => true⟩ (fun _ _ => false) (by decide) rfl
    (by decide) (by decide) (by decide)

/-- C10: binary_erosion never modifies its input image: the band loop passes
the image through unchanged on every path (success or assertion failure), and
a successful call returns the very image it was given; all writes go to the
freshly allocated output grid and the per-band scratch buffers. -/
theorem erosion_preserves_input (m : Morpher) (img : Grid) (init : Nat → Nat → Bool) :
    (∀ (out : Grid) (bands : List (Nat × BandInfo)) (lastrow : Nat),
      (runBands img out bands lastrow).img = img) ∧
    (∀ (mf : Morpher) (img2 out : Grid),
      binary_erosion m img init = .ok (mf, img2, out) → img2 = img) := by
  refine ⟨fun out bands lastrow => runBands_img bands img out lastrow, ?_⟩
  intro mf img2 out h
  unfold binary_erosion at h
  split_ifs at h with hset
  · simp only [] at h
    cases herr : (runBands img ⟨img.h, img.w, init⟩ m.diBands 0).err with
    | some e => rw [herr] at h; exact absurd h (by simp)
    | none =>
      rw [herr] at h
      simp only [] at h
      rw [Except.ok.injEq, Prod.mk.injEq, Prod.mk.injEq] at h
      rw [← h.2.1]
      exact runBands_img m.diBands img ⟨img.h, img.w, init⟩ 0

/-- C10 (witness): a concrete successful erosion returns its input image
unchanged. -/
theorem erosion_preserves_input_wit :
    (getOk (initMorpher, repImg, repImg)
      (binary_erosion repMorpher repImg (fun _ _ => false))).2.1 = repImg :=
  (erosion_preserves_input repMorpher repImg (fun _ _ => false)).2
    (getOk (initMorpher, repImg, repImg)
      (binary_erosion repMorpher repImg (fun _ _ => false))).1
    (getOk (initMorpher, repImg, repImg)
      (binary_erosion repMorpher repImg (fun _ _ => false))).2.1
    (getOk (initMorpher, repImg, repImg)
      (binary_erosion repMorpher repImg (fun _ _ => false))).2.2
    rfl
